import Mathlib

/-!
Verification of the horoscope chart-computation core of the
holoscopeAPI/horoscope-api-cloudrun service (`src/main.py`).

The numeric domain of the Python code (floats holding ecliptic longitudes,
geographic coordinates and Julian Days) is embedded as `ℚ`; Python's
`int(x)` truncation toward zero is `pyTrunc`, and Python's `%` on integers
(floor-modulo, result sign following the positive divisor) is `Int.emod`.
Fallible steps (exceptions caught by `except ... return None`) are
`Option`-valued.  External collaborators (the Swiss Ephemeris planetary
routines and the geocoding lookup) are parameters of the pipeline.
-/

/-- Python's `int(x)` applied to a real number: truncation toward zero. -/
def pyTrunc (q : ℚ) : ℤ :=
  if 0 ≤ q then ⌊q⌋ else ⌈q⌉

/-- The twelve sign names, in the order of the `zodiac_signs` list of
`get_zodiac_sign` (`src/main.py` lines 146-149). -/
def zodiac_signs : List String :=
  ["牡羊座", "牡牛座", "双子座", "蟹座", "獅子座", "乙女座",
   "天秤座", "蠍座", "射手座", "山羊座", "水瓶座", "魚座"]

/-- `sign_index = int(longitude / 30) % 12` (`src/main.py` line 152). -/
def sign_index (longitude : ℚ) : ℤ :=
  pyTrunc (longitude / 30) % 12

/-- `get_zodiac_sign` (`src/main.py` lines 142-153): index the fixed list
by `sign_index`.  The index is always in `0..11` (proved below), so the
`getD` default is never reached. -/
def get_zodiac_sign (longitude : ℚ) : String :=
  zodiac_signs.getD (sign_index longitude).toNat ""

theorem sign_index_nonneg (longitude : ℚ) : 0 ≤ sign_index longitude :=
  Int.emod_nonneg _ (by norm_num)

theorem sign_index_lt (longitude : ℚ) : sign_index longitude < 12 :=
  Int.emod_lt_of_pos _ (by norm_num)

theorem pyTrunc_of_nonneg {q : ℚ} (h : 0 ≤ q) : pyTrunc q = ⌊q⌋ := by
  simp [pyTrunc, h]

/-- For a nonnegative longitude the index computation is a genuine floor. -/
theorem sign_index_of_nonneg {L : ℚ} (h : 0 ≤ L) :
    sign_index L = ⌊L / 30⌋ % 12 := by
  unfold sign_index
  rw [pyTrunc_of_nonneg (by positivity)]

/-- Evaluation helper: once the truncated quotient is known, the sign is a
concrete list lookup. -/
theorem get_zodiac_sign_eval (L : ℚ) (n : ℤ) (h : pyTrunc (L / 30) = n) :
    get_zodiac_sign L = zodiac_signs.getD (n % 12).toNat "" := by
  rw [get_zodiac_sign, sign_index, h]

/-- C1 (counterexample): `get_zodiac_sign` is not 360-periodic on negative
longitudes.  Python's `int()` truncates toward zero, so `-10` maps to index
`0` (first sign) while `-10 + 360 = 350` maps to index `11` (twelfth sign);
the claimed equality fails at `L = -10`, `k = 1`. -/
theorem zodiac_periodicity_counterexample :
    get_zodiac_sign (-10) ≠ get_zodiac_sign ((-10) + 360 * 1) := by
  rw [get_zodiac_sign_eval (-10) 0
        (by unfold pyTrunc; rw [if_neg (by norm_num)]; norm_num),
      get_zodiac_sign_eval ((-10) + 360 * 1) 11
        (by unfold pyTrunc; rw [if_pos (by norm_num)]; norm_num)]
  decide

theorem sign_index_add_int (L : ℚ) (k : ℤ) (hL : 0 ≤ L) (hLk : 0 ≤ L + 360 * k) :
    sign_index (L + 360 * k) = sign_index L := by
  rw [sign_index_of_nonneg hL, sign_index_of_nonneg hLk]
  have h30 : (L + 360 * k) / 30 = L / 30 + ((12 * k : ℤ) : ℚ) := by
    push_cast
    ring
  rw [h30, Int.floor_add_int, Int.add_mul_emod_self_left]

/-- C1 (amended): the Zodiac Classifier is 360-periodic on the nonnegative
half-line: for every longitude `L ≥ 0` and every integer `k` with
`L + 360*k ≥ 0`, `get_zodiac_sign (L + 360*k) = get_zodiac_sign L`.  (On
negative longitudes the `int()` truncation breaks periodicity, see the
counterexample.) -/
theorem zodiac_periodicity_nonneg (L : ℚ) (k : ℤ) (hL : 0 ≤ L)
    (hLk : 0 ≤ L + 360 * k) :
    get_zodiac_sign (L + 360 * k) = get_zodiac_sign L := by
  rw [get_zodiac_sign, get_zodiac_sign, sign_index_add_int L k hL hLk]

/-- Witness for `zodiac_periodicity_nonneg` at `L = 45`, `k = 2`. -/
theorem zodiac_periodicity_nonneg_witness :
    get_zodiac_sign (45 + 360 * 2) = get_zodiac_sign 45 :=
  zodiac_periodicity_nonneg 45 2 (by norm_num) (by norm_num)

/-- C2: on `[0, 360)` the classifier follows the closed-open 30-degree band
rule `sign_index = ⌊L/30⌋ % 12`, with the claimed boundary behaviour:
`0 ↦` first sign, `29.999 ↦` first sign, `30 ↦` second sign,
`359.999999 ↦` twelfth sign, and `360` classifies identically to `0`. -/
theorem zodiac_band_rule (L : ℚ) (h0 : 0 ≤ L) (h1 : L < 360) :
    sign_index L = ⌊L / 30⌋ % 12
    ∧ get_zodiac_sign 0 = "牡羊座"
    ∧ get_zodiac_sign (29999 / 1000) = "牡羊座"
    ∧ get_zodiac_sign 30 = "牡牛座"
    ∧ get_zodiac_sign (359999999 / 1000000) = "魚座"
    ∧ get_zodiac_sign 360 = get_zodiac_sign 0 := by
  refine ⟨sign_index_of_nonneg h0, ?_, ?_, ?_, ?_, ?_⟩
  · rw [get_zodiac_sign_eval 0 0
          (by unfold pyTrunc; rw [if_pos (by norm_num)]; norm_num)]
    decide
  · rw [get_zodiac_sign_eval (29999 / 1000) 0
          (by unfold pyTrunc; rw [if_pos (by norm_num)]; norm_num)]
    decide
  · rw [get_zodiac_sign_eval 30 1
          (by unfold pyTrunc; rw [if_pos (by norm_num)]; norm_num)]
    decide
  · rw [get_zodiac_sign_eval (359999999 / 1000000) 11
          (by unfold pyTrunc; rw [if_pos (by norm_num)]; norm_num)]
    decide
  · rw [get_zodiac_sign_eval 360 12
          (by unfold pyTrunc; rw [if_pos (by norm_num)]; norm_num),
        get_zodiac_sign_eval 0 0
          (by unfold pyTrunc; rw [if_pos (by norm_num)]; norm_num)]
    decide

/-- Witness for `zodiac_band_rule` at `L = 15`. -/
theorem zodiac_band_rule_witness :
    sign_index 15 = ⌊(15 : ℚ) / 30⌋ % 12
    ∧ get_zodiac_sign 0 = "牡羊座"
    ∧ get_zodiac_sign (29999 / 1000) = "牡羊座"
    ∧ get_zodiac_sign 30 = "牡牛座"
    ∧ get_zodiac_sign (359999999 / 1000000) = "魚座"
    ∧ get_zodiac_sign 360 = get_zodiac_sign 0 :=
  zodiac_band_rule 15 (by norm_num) (by norm_num)

/-- C3: the classifier is total — for every rational longitude the computed
index lies in `0..11` and the result is one of the twelve fixed sign names
(so the list access in `get_zodiac_sign` is always in bounds). -/
theorem get_zodiac_sign_total (L : ℚ) :
    0 ≤ sign_index L ∧ sign_index L < 12 ∧ get_zodiac_sign L ∈ zodiac_signs := by
  refine ⟨sign_index_nonneg L, sign_index_lt L, ?_⟩
  have h0 := sign_index_nonneg L
  have h1 := sign_index_lt L
  unfold get_zodiac_sign
  generalize hn : sign_index L = n at h0 h1 ⊢
  interval_cases n <;> decide

/-! ## Astronomical time conversion

`calculate_natal_chart` converts the birth moment to a Julian Day with
`swe.utc_to_jd` (`src/main.py` lines 114-115).  The conversion algorithm
itself lives in the Swiss Ephemeris library, outside this repository, so it
is modelled from the spec below (§4.1: proleptic-Gregorian-consistent
conversion of a UTC civil timestamp to a single real Julian Day). -/

/-- Proleptic Gregorian leap-year rule. -/
def isLeap (y : ℤ) : Bool :=
  (y % 4 == 0 && y % 100 != 0) || (y % 400 == 0)

/-- Length of month `m` (`1..12`) given the year's leapness; `0` outside. -/
def monthLen (leap : Bool) (m : ℕ) : ℕ :=
  match m with
  | 1 => 31 | 2 => if leap then 29 else 28 | 3 => 31 | 4 => 30 | 5 => 31
  | 6 => 30 | 7 => 31 | 8 => 31 | 9 => 30 | 10 => 31 | 11 => 30 | 12 => 31
  | _ => 0

/-- Total days in months `1..m-1` of a year of the given leapness. -/
def daysBefore (leap : Bool) : ℕ → ℕ
  | 0 => 0
  | m + 1 => daysBefore leap m + monthLen leap m

/-- Number of leap years in `1..y`. -/
def leapsBefore (y : ℤ) : ℤ :=
  y / 4 - y / 100 + y / 400

/-- Rata-die day number: day 1 is 0001-01-01, proleptic Gregorian. -/
def rataDie (y : ℤ) (m d : ℕ) : ℤ :=
  365 * (y - 1) + leapsBefore (y - 1) + (daysBefore (isLeap y) m : ℤ) + (d : ℤ)

/-- A UTC civil timestamp as handed to `swe.utc_to_jd`. -/
structure UTCTimestamp where
  year : ℤ
  month : ℕ
  day : ℕ
  hour : ℕ
  minute : ℕ
  second : ℚ

/-- Canonical-range validity of a civil timestamp (the ranges produced by
Python's `datetime`, whose years span `1..9999`). -/
def validCivil (t : UTCTimestamp) : Prop :=
  1 ≤ t.year ∧ t.year ≤ 9999 ∧ 1 ≤ t.month ∧ t.month ≤ 12
  ∧ 1 ≤ t.day ∧ t.day ≤ monthLen (isLeap t.year) t.month
  ∧ t.hour ≤ 23 ∧ t.minute ≤ 59 ∧ 0 ≤ t.second ∧ t.second < 60

/-- Chronological (lexicographic) order of civil timestamps. -/
def civilBefore (a b : UTCTimestamp) : Prop :=
  a.year < b.year
  ∨ (a.year = b.year ∧ (a.month < b.month
  ∨ (a.month = b.month ∧ (a.day < b.day
  ∨ (a.day = b.day ∧ (a.hour < b.hour
  ∨ (a.hour = b.hour ∧ (a.minute < b.minute
  ∨ (a.minute = b.minute ∧ a.second < b.second)))))))))

/-- Modelled from the spec: the Astronomical Time Converter (spec §4.1),
whose implementation is `swe.utc_to_jd` of the external Swiss Ephemeris
library and hence absent from `src/`.  It converts a UTC civil timestamp to
the real-valued Julian Day by proleptic-Gregorian day counting plus the
fraction of the day elapsed (JD 1721424.5 is 0001-01-01 00:00 UTC). -/
def utc_to_jd (t : UTCTimestamp) : ℚ :=
  (rataDie t.year t.month t.day : ℚ) + 1721424 + 1/2
    + (t.hour * 3600 + t.minute * 60 + t.second) / 86400

theorem daysBefore_succ (leap : Bool) (m : ℕ) :
    daysBefore leap (m + 1) = daysBefore leap m + monthLen leap m := rfl

theorem daysBefore_mono (leap : Bool) {a b : ℕ} (h : a ≤ b) :
    daysBefore leap a ≤ daysBefore leap b := by
  induction b with
  | zero => simp [Nat.le_zero.mp h]
  | succ n ih =>
    rcases Nat.lt_or_ge a (n + 1) with h' | h'
    · exact le_trans (ih (Nat.lt_succ_iff.mp h')) (by rw [daysBefore_succ]; omega)
    · have ha : a = n + 1 := le_antisymm h h'
      simp [ha]

theorem isLeap_iff (y : ℤ) :
    isLeap y = true ↔ ((y % 4 = 0 ∧ ¬ y % 100 = 0) ∨ y % 400 = 0) := by
  unfold isLeap
  simp

theorem leapsBefore_step (y : ℤ) :
    leapsBefore y = leapsBefore (y - 1) + (if isLeap y then 1 else 0) := by
  by_cases hl : isLeap y = true
  · have h := (isLeap_iff y).mp hl
    rw [if_pos hl]
    unfold leapsBefore
    omega
  · have h := (isLeap_iff y).not.mp hl
    rw [if_neg hl]
    unfold leapsBefore
    push_neg at h
    omega

theorem daysBefore_one (leap : Bool) : daysBefore leap 1 = 0 := by
  cases leap <;> rfl

theorem daysBefore_thirteen (leap : Bool) :
    daysBefore leap 13 = 365 + (if leap then 1 else 0) := by
  cases leap <;> rfl

/-- December 31 is immediately followed by January 1 of the next year. -/
theorem rataDie_year_step (y : ℤ) :
    rataDie y 12 31 + 1 = rataDie (y + 1) 1 1 := by
  have hs : daysBefore (isLeap y) 13 = daysBefore (isLeap y) 12 + monthLen (isLeap y) 12 :=
    daysBefore_succ _ 12
  have hm : monthLen (isLeap y) 12 = 31 := by cases isLeap y <;> rfl
  have h13 := daysBefore_thirteen (isLeap y)
  have hstep := leapsBefore_step y
  unfold rataDie
  rw [daysBefore_one]
  have hy : y + 1 - 1 = y := by ring
  rw [hy]
  by_cases hl : isLeap y = true
  · rw [if_pos hl] at hstep h13
    omega
  · rw [if_neg hl] at hstep h13
    omega

theorem rataDie_yearStart_succ (y : ℤ) :
    rataDie y 1 1 < rataDie (y + 1) 1 1 := by
  have h1 : rataDie y 1 1 ≤ rataDie y 12 31 := by
    unfold rataDie
    have := daysBefore_mono (isLeap y) (show (1 : ℕ) ≤ 12 by omega)
    omega
  have h2 := rataDie_year_step y
  omega

theorem rataDie_yearStart_le {z z' : ℤ} (h : z ≤ z') :
    rataDie z 1 1 ≤ rataDie z' 1 1 := by
  obtain ⟨n, rfl⟩ : ∃ n : ℕ, z' = z + n := ⟨(z' - z).toNat, by omega⟩
  clear h
  induction n with
  | zero => simp
  | succ k ih =>
    have hk : (z + (k + 1 : ℕ) : ℤ) = (z + (k : ℕ)) + 1 := by push_cast; ring
    rw [hk]
    exact le_trans ih (le_of_lt (rataDie_yearStart_succ _))

/-- Within one year, later (month, day) means a strictly larger day count. -/
theorem dayOfYear_lt (leap : Bool) {m1 d1 m2 d2 : ℕ}
    (hd1' : d1 ≤ monthLen leap m1) (hd2 : 1 ≤ d2)
    (h : m1 < m2 ∨ (m1 = m2 ∧ d1 < d2)) :
    daysBefore leap m1 + d1 < daysBefore leap m2 + d2 := by
  rcases h with h | ⟨rfl, h⟩
  · have h1 : daysBefore leap m1 + d1 ≤ daysBefore leap (m1 + 1) := by
      rw [daysBefore_succ]
      omega
    have h2 : daysBefore leap (m1 + 1) ≤ daysBefore leap m2 := daysBefore_mono leap h
    omega
  · omega

/-- The rata-die count is strictly monotone in the calendar date. -/
theorem rataDie_strict_mono {a b : UTCTimestamp} (ha : validCivil a) (hb : validCivil b)
    (h : a.year < b.year
       ∨ (a.year = b.year ∧ (a.month < b.month ∨ (a.month = b.month ∧ a.day < b.day)))) :
    rataDie a.year a.month a.day < rataDie b.year b.month b.day := by
  obtain ⟨hay1, hay2, ham1, ham2, had1, had2, -⟩ := ha
  obtain ⟨hby1, hby2, hbm1, hbm2, hbd1, hbd2, -⟩ := hb
  rcases h with hy | ⟨hy, hmd⟩
  · have h1 : rataDie a.year a.month a.day ≤ rataDie a.year 12 31 := by
      unfold rataDie
      have h13 := daysBefore_thirteen (isLeap a.year)
      have hs : daysBefore (isLeap a.year) 13
          = daysBefore (isLeap a.year) 12 + monthLen (isLeap a.year) 12 :=
        daysBefore_succ _ 12
      have hm : monthLen (isLeap a.year) 12 = 31 := by cases isLeap a.year <;> rfl
      have hle : daysBefore (isLeap a.year) a.month + a.day
          ≤ daysBefore (isLeap a.year) 13 := by
        have h1 : daysBefore (isLeap a.year) a.month + a.day
            ≤ daysBefore (isLeap a.year) (a.month + 1) := by
          rw [daysBefore_succ]
          omega
        have h2 : daysBefore (isLeap a.year) (a.month + 1)
            ≤ daysBefore (isLeap a.year) 13 := daysBefore_mono _ (by omega)
        omega
      omega
    have h2 := rataDie_year_step a.year
    have h3 : rataDie (a.year + 1) 1 1 ≤ rataDie b.year 1 1 :=
      rataDie_yearStart_le (by omega)
    have h4 : rataDie b.year 1 1 ≤ rataDie b.year b.month b.day := by
      unfold rataDie
      rw [daysBefore_one]
      have := daysBefore_mono (isLeap b.year) (show 0 ≤ b.month by omega)
      have h0 : daysBefore (isLeap b.year) 0 = 0 := rfl
      omega
    omega
  · rw [hy]
    unfold rataDie
    rw [hy] at had2
    have := dayOfYear_lt (isLeap b.year) had2 hbd1 hmd
    omega

theorem timeOfDay_nonneg {t : UTCTimestamp} (h : validCivil t) :
    0 ≤ (t.hour * 3600 + t.minute * 60 : ℚ) + t.second := by
  obtain ⟨-, -, -, -, -, -, -, -, hs, -⟩ := h
  positivity

theorem timeOfDay_lt_day {t : UTCTimestamp} (h : validCivil t) :
    (t.hour * 3600 + t.minute * 60 : ℚ) + t.second < 86400 := by
  obtain ⟨-, -, -, -, -, -, hh, hm, -, hs⟩ := h
  have hh' : (t.hour : ℚ) ≤ 23 := by exact_mod_cast hh
  have hm' : (t.minute : ℚ) ≤ 59 := by exact_mod_cast hm
  linarith

theorem timeOfDay_strict_mono {a b : UTCTimestamp} (ha : validCivil a) (hb : validCivil b)
    (h : a.hour < b.hour
       ∨ (a.hour = b.hour ∧ (a.minute < b.minute
       ∨ (a.minute = b.minute ∧ a.second < b.second)))) :
    (a.hour * 3600 + a.minute * 60 : ℚ) + a.second
      < (b.hour * 3600 + b.minute * 60 : ℚ) + b.second := by
  obtain ⟨-, -, -, -, -, -, -, ham, has1, has2⟩ := ha
  obtain ⟨-, -, -, -, -, -, -, -, hbs1, -⟩ := hb
  have ham' : (a.minute : ℚ) ≤ 59 := by exact_mod_cast ham
  rcases h with hh | ⟨hh, hm | ⟨hm, hs⟩⟩
  · have : (a.hour : ℚ) + 1 ≤ b.hour := by exact_mod_cast hh
    linarith
  · have h1 : (a.minute : ℚ) + 1 ≤ b.minute := by exact_mod_cast hm
    rw [hh]
    linarith
  · rw [hh, hm]
    linarith

/-- C7: the astronomical time conversion is strictly monotonic — for valid
UTC civil timestamps `a` chronologically before `b`, the Julian Day of `a`
is strictly less than the Julian Day of `b`. -/
theorem utc_to_jd_strict_mono (a b : UTCTimestamp) (ha : validCivil a)
    (hb : validCivil b) (hab : civilBefore a b) :
    utc_to_jd a < utc_to_jd b := by
  have hta0 := timeOfDay_nonneg ha
  have hta1 := timeOfDay_lt_day ha
  have htb0 := timeOfDay_nonneg hb
  have htb1 := timeOfDay_lt_day hb
  unfold utc_to_jd
  rcases hab with hy | ⟨hy, hm | ⟨hm, hd | ⟨hd, ht⟩⟩⟩
  case inl =>
    have hr := rataDie_strict_mono ha hb (Or.inl hy)
    have hr' : (rataDie a.year a.month a.day : ℚ) + 1 ≤ rataDie b.year b.month b.day := by
      exact_mod_cast hr
    have h1 : (a.hour * 3600 + a.minute * 60 + a.second) / 86400 < 1 := by
      rw [div_lt_one (by norm_num)]
      linarith
    have h2 : (0 : ℚ) ≤ (b.hour * 3600 + b.minute * 60 + b.second) / 86400 := by
      positivity
    linarith
  case inr.intro.inl =>
    have hr := rataDie_strict_mono ha hb (Or.inr ⟨hy, Or.inl hm⟩)
    have hr' : (rataDie a.year a.month a.day : ℚ) + 1 ≤ rataDie b.year b.month b.day := by
      exact_mod_cast hr
    have h1 : (a.hour * 3600 + a.minute * 60 + a.second) / 86400 < 1 := by
      rw [div_lt_one (by norm_num)]
      linarith
    have h2 : (0 : ℚ) ≤ (b.hour * 3600 + b.minute * 60 + b.second) / 86400 := by
      positivity
    linarith
  case inr.intro.inr.intro.inl =>
    have hr := rataDie_strict_mono ha hb (Or.inr ⟨hy, Or.inr ⟨hm, hd⟩⟩)
    have hr' : (rataDie a.year a.month a.day : ℚ) + 1 ≤ rataDie b.year b.month b.day := by
      exact_mod_cast hr
    have h1 : (a.hour * 3600 + a.minute * 60 + a.second) / 86400 < 1 := by
      rw [div_lt_one (by norm_num)]
      linarith
    have h2 : (0 : ℚ) ≤ (b.hour * 3600 + b.minute * 60 + b.second) / 86400 := by
      positivity
    linarith
  case inr.intro.inr.intro.inr.intro =>
    rw [hy, hm, hd]
    have hlt := timeOfDay_strict_mono ha hb ht
    have h3 : (a.hour * 3600 + a.minute * 60 + a.second) / 86400
        < (b.hour * 3600 + b.minute * 60 + b.second) / 86400 := by
      apply div_lt_div_of_pos_right hlt
      norm_num
    linarith

/-- Witness for `utc_to_jd_strict_mono`: 1990-01-01 03:30:00 UTC is before
1990-01-01 03:31:00 UTC and gets a strictly smaller Julian Day. -/
theorem utc_to_jd_strict_mono_witness :
    utc_to_jd ⟨1990, 1, 1, 3, 30, 0⟩ < utc_to_jd ⟨1990, 1, 1, 3, 31, 0⟩ :=
  utc_to_jd_strict_mono ⟨1990, 1, 1, 3, 30, 0⟩ ⟨1990, 1, 1, 3, 31, 0⟩
    (by refine ⟨by norm_num, by norm_num, by norm_num, by norm_num, by norm_num,
          ?_, by norm_num, by norm_num, by norm_num, by norm_num⟩
        norm_num [isLeap, monthLen])
    (by refine ⟨by norm_num, by norm_num, by norm_num, by norm_num, by norm_num,
          ?_, by norm_num, by norm_num, by norm_num, by norm_num⟩
        norm_num [isLeap, monthLen])
    (Or.inr ⟨rfl, Or.inr ⟨rfl, Or.inr ⟨rfl, Or.inr ⟨rfl, Or.inl (by norm_num)⟩⟩⟩⟩)

/-! ## Input parsing

Python's string primitives are embedded structurally on the character
list of the string, so that concrete runs reduce inside the kernel:
`pySplit` is `str.split(sep)` for a one-character separator (keeping empty
fields), `pyStrip` is `str.strip()`, `pyLower` is `str.lower()` (ASCII),
and `charsToNat` is `int()` on a digit string. -/

/-- `str.split(sep)` on the character list: split at every separator
occurrence, keeping empty fields. -/
def splitChars (sep : Char) : List Char → List (List Char)
  | [] => [[]]
  | c :: rest =>
    let r := splitChars sep rest
    if c = sep then [] :: r
    else
      match r with
      | [] => [[c]]
      | g :: gs => (c :: g) :: gs

/-- Python `str.split(sep)` for a one-character separator. -/
def pySplit (s : String) (sep : Char) : List String :=
  (splitChars sep s.data).map fun cs => ⟨cs⟩

/-- Drop leading whitespace of a character list. -/
def dropLeadingWS : List Char → List Char
  | [] => []
  | c :: r => if c.isWhitespace then dropLeadingWS r else c :: r

/-- Python `str.strip()`. -/
def pyStrip (s : String) : String :=
  ⟨(dropLeadingWS (dropLeadingWS s.data).reverse).reverse⟩

/-- Python `str.lower()` (ASCII case folding). -/
def pyLower (s : String) : String :=
  ⟨s.data.map Char.toLower⟩

/-- `int()` on a string of decimal digits. -/
def charsToNat (cs : List Char) : ℕ :=
  cs.foldl (fun acc c => acc * 10 + (c.toNat - 48)) 0

/-- `datetime.strptime(s, "%Y-%m-%d")` (`src/main.py` line 246): a
4-digit year, a 1-2-digit month and a 1-2-digit day separated by `-`,
subsequently validated as a real calendar date (Python raises `ValueError`
otherwise, modelled as `none`). -/
def strptimeDate (s : String) : Option (ℤ × ℕ × ℕ) :=
  match pySplit s '-' with
  | [ys, ms, ds] =>
    if ys.data.length = 4 ∧ ys.data.all Char.isDigit
        ∧ 1 ≤ ms.data.length ∧ ms.data.length ≤ 2 ∧ ms.data.all Char.isDigit
        ∧ 1 ≤ ds.data.length ∧ ds.data.length ≤ 2 ∧ ds.data.all Char.isDigit then
      let y := charsToNat ys.data
      let m := charsToNat ms.data
      let d := charsToNat ds.data
      if 1 ≤ y ∧ 1 ≤ m ∧ m ≤ 12 ∧ 1 ≤ d ∧ d ≤ monthLen (isLeap y) m then
        some ((y : ℤ), m, d)
      else none
    else none
  | _ => none

/-- `datetime.strptime(s, "%H:%M")` (`src/main.py` line 247): a
1-2-digit hour `0..23` and a 1-2-digit minute `0..59` separated by `:`. -/
def strptimeTime (s : String) : Option (ℕ × ℕ) :=
  match pySplit s ':' with
  | [hs, ms] =>
    if 1 ≤ hs.data.length ∧ hs.data.length ≤ 2 ∧ hs.data.all Char.isDigit
        ∧ 1 ≤ ms.data.length ∧ ms.data.length ≤ 2 ∧ ms.data.all Char.isDigit then
      let hh := charsToNat hs.data
      let mi := charsToNat ms.data
      if hh ≤ 23 ∧ mi ≤ 59 then some (hh, mi) else none
    else none
  | _ => none

/-- `datetime.strptime(f"{birth_date_str} {birth_time_str}",
"%Y-%m-%d %H:%M")` (`src/main.py` lines 99-100): the joined string must
contain exactly one space, splitting it into a date and a time. -/
def strptimeDateTime (dateStr timeStr : String) : Option (ℤ × ℕ × ℕ × ℕ × ℕ) :=
  match pySplit (dateStr ++ " " ++ timeStr) ' ' with
  | [ds, ts] =>
    match strptimeDate ds, strptimeTime ts with
    | some (y, m, d), some (hh, mi) => some (y, m, d, hh, mi)
    | _, _ => none
  | _ => none

/-! ## The natal-chart pipeline -/

/-- `tz.localize(...).astimezone(pytz.utc)` (`src/main.py` lines 110-112)
with the fixed JST offset (UTC+9) the code's comments stipulate: subtract
nine hours with calendar borrow.  The seconds are zero because the parsed
time has only hours and minutes. -/
def jstToUTC (y : ℤ) (mo d hh mi : ℕ) : UTCTimestamp :=
  if 9 ≤ hh then ⟨y, mo, d, hh - 9, mi, 0⟩
  else if 1 < d then ⟨y, mo, d - 1, hh + 15, mi, 0⟩
  else if 1 < mo then ⟨y, mo - 1, monthLen (isLeap y) (mo - 1), hh + 15, mi, 0⟩
  else ⟨y - 1, 12, 31, hh + 15, mi, 0⟩

/-- The planetary-position and house routines of the external Swiss
Ephemeris library, abstracted as an oracle: `calc_ut jd planetId` returns
the (ecliptic longitude, angular speed) pair read off `xx[0], xx[1]`, and
`houses jd lat lon` returns the (Ascendant, Midheaven) longitudes
`ascmc[0], ascmc[1]` for the fixed Placidus house system.  `none` models
the routine raising (ephemeris data unavailable, numerical domain error). -/
structure Ephemeris where
  calc_ut : ℚ → ℕ → Option (ℚ × ℚ)
  houses : ℚ → ℚ → ℚ → Option (ℚ × ℚ)

/-- One value of the `natal_positions` dict: planets map to a (longitude,
speed) 2-tuple (`src/main.py` line 128), the angles ASC and MC to a
1-tuple holding only the longitude (lines 132-133). -/
inductive ChartEntry where
  | planet (lon speed : ℚ)
  | angle (lon : ℚ)
deriving DecidableEq

/-- `pos[0]`: the longitude component, present in both shapes. -/
def ChartEntry.lon : ChartEntry → ℚ
  | .planet l _ => l
  | .angle l => l

/-- `pos[1]`: the angular speed — absent (an `IndexError` for any reader)
on the 1-tuples of ASC and MC. -/
def ChartEntry.speed? : ChartEntry → Option ℚ
  | .planet _ s => some s
  | .angle _ => none

/-- The assembled chart: the `natal_positions` dict in insertion order. -/
abbrev NatalChart := List (String × ChartEntry)

/-- The `planets` dict (`src/main.py` lines 118-123) in insertion order,
with the Swiss Ephemeris body numbers `swe.SUN = 0` … `swe.PLUTO = 9`. -/
def planets : List (String × ℕ) :=
  [("Sun", 0), ("Moon", 1), ("Mercury", 2), ("Venus", 3), ("Mars", 4),
   ("Jupiter", 5), ("Saturn", 6), ("Uranus", 7), ("Neptune", 8), ("Pluto", 9)]

/-- The identifiers of a fully assembled chart, in insertion order. -/
def chartKeys : List String :=
  ["Sun", "Moon", "Mercury", "Venus", "Mars", "Jupiter", "Saturn",
   "Uranus", "Neptune", "Pluto", "ASC", "MC"]

/-- The `for name, p_id in planets.items()` loop (`src/main.py` lines
126-128); an exception from any `calc_ut` call aborts the whole
computation. -/
def calcPlanets (eph : Ephemeris) (jd : ℚ) : List (String × ℕ) → Option NatalChart
  | [] => some []
  | (name, pid) :: rest =>
    match eph.calc_ut jd pid with
    | none => none
    | some (lo, sp) =>
      match calcPlanets eph jd rest with
      | none => none
      | some cs => some ((name, ChartEntry.planet lo sp) :: cs)

/-- The Julian Day `calculate_natal_chart` derives from its date and time
strings (`jd_utc[0]`, `src/main.py` lines 99-115); `0` when parsing fails
(in that case the value is never used). -/
def chartJD (birth_date_str birth_time_str : String) : ℚ :=
  match strptimeDateTime birth_date_str birth_time_str with
  | some (y, mo, d, hh, mi) => utc_to_jd (jstToUTC y mo d hh mi)
  | none => 0

/-- `calculate_natal_chart` (`src/main.py` lines 93-140): parse the birth
moment, convert JST to UTC, derive the Julian Day, compute the ten
planetary positions, then the ASC/MC house angles; any failing step makes
the call return `None` (the `except` clause, lines 138-140). -/
def calculate_natal_chart (eph : Ephemeris) (birth_date_str birth_time_str : String)
    (latitude longitude : ℚ) : Option NatalChart :=
  match strptimeDateTime birth_date_str birth_time_str with
  | none => none
  | some (y, mo, d, hh, mi) =>
    let jd := utc_to_jd (jstToUTC y mo d hh mi)
    match calcPlanets eph jd planets with
    | none => none
    | some ps =>
      match eph.houses jd latitude longitude with
      | none => none
      | some (asc, mc) =>
        some (ps ++ [("ASC", ChartEntry.angle asc), ("MC", ChartEntry.angle mc)])

/-! ## The message pipeline -/

/-- The outcome of one incoming message, one constructor per terminal
reply of `handle_message` (`src/main.py` lines 222-283). -/
inductive Outcome where
  | greeting
  | wrongShape
  | wrongDateTime
  | geocodeNotFound
  | chartError
  | success (chart : NatalChart)
  | unexpectedError
deriving DecidableEq

/-- `[p.strip() for p in user_message.split(',')]` (`src/main.py`
line 238), applied to the stripped message. -/
def msgParts (msg : String) : List String :=
  (pySplit (pyStrip msg) ',').map pyStrip

/-- `parts[0].split(' ')` (`src/main.py` lines 240-241). -/
def firstFieldTokens (msg : String) : List String :=
  pySplit ((msgParts msg).getD 0 "") ' '

/-- `handle_message` (`src/main.py` lines 222-283) with the LINE transport
stripped: `geo` is the geocoding collaborator (`get_coordinates`), `eph`
the ephemeris oracle.  A missing second token of the first field raises
`IndexError` at line 241, which only the final generic handler catches
(`Outcome.unexpectedError`); an invalid date or time raises `ValueError`,
caught at line 276 (`Outcome.wrongDateTime`). -/
def handle_message (geo : String → String → Option (ℚ × ℚ)) (eph : Ephemeris)
    (msg : String) : Outcome :=
  if pyLower (pyStrip msg) = "こんにちは" then Outcome.greeting
  else if (msgParts msg).length = 3 then
    match (firstFieldTokens msg).get? 1 with
    | none => Outcome.unexpectedError
    | some birth_time_str =>
      match strptimeDate ((firstFieldTokens msg).getD 0 ""),
            strptimeTime birth_time_str with
      | some _, some _ =>
        match geo ((msgParts msg).getD 2 "") ((msgParts msg).getD 1 "") with
        | none => Outcome.geocodeNotFound
        | some (lat, lon) =>
          match calculate_natal_chart eph ((firstFieldTokens msg).getD 0 "")
              birth_time_str lat lon with
          | none => Outcome.chartError
          | some chart => Outcome.success chart
      | _, _ => Outcome.wrongDateTime
  else Outcome.wrongShape

/-! ## Structural facts about the assembled chart -/

theorem calcPlanets_shape (eph : Ephemeris) (jd : ℚ) (ps : List (String × ℕ)) :
    ∀ cs : NatalChart, calcPlanets eph jd ps = some cs →
      cs.map Prod.fst = ps.map Prod.fst
      ∧ ∀ e ∈ cs, ∃ lo sp pid, e.2 = ChartEntry.planet lo sp
          ∧ eph.calc_ut jd pid = some (lo, sp) := by
  induction ps with
  | nil =>
    intro cs h
    simp only [calcPlanets, Option.some.injEq] at h
    subst h
    simp
  | cons p rest ih =>
    intro cs h
    obtain ⟨name, pid⟩ := p
    unfold calcPlanets at h
    cases hc : eph.calc_ut jd pid with
    | none => rw [hc] at h; exact absurd h (by simp)
    | some v =>
      obtain ⟨lo, sp⟩ := v
      rw [hc] at h
      cases hr : calcPlanets eph jd rest with
      | none => rw [hr] at h; exact absurd h (by simp)
      | some cs' =>
        rw [hr] at h
        simp only [Option.some.injEq] at h
        subst h
        obtain ⟨h1, h2⟩ := ih cs' hr
        refine ⟨by simp [h1], ?_⟩
        intro e he
        rcases List.mem_cons.mp he with rfl | he'
        · exact ⟨lo, sp, pid, rfl, hc⟩
        · exact h2 e he'

theorem calcPlanets_all_some (eph : Ephemeris) (jd : ℚ) (ps : List (String × ℕ)) :
    ∀ cs : NatalChart, calcPlanets eph jd ps = some cs →
      ∀ name pid, (name, pid) ∈ ps → ∃ r, eph.calc_ut jd pid = some r := by
  induction ps with
  | nil =>
    intro cs _ name pid hmem
    simp at hmem
  | cons p rest ih =>
    intro cs h name pid hmem
    obtain ⟨nm, pd⟩ := p
    unfold calcPlanets at h
    cases hc : eph.calc_ut jd pd with
    | none => rw [hc] at h; exact absurd h (by simp)
    | some v =>
      rw [hc] at h
      obtain ⟨lo, sp⟩ := v
      cases hr : calcPlanets eph jd rest with
      | none => rw [hr] at h; exact absurd h (by simp)
      | some cs' =>
        rcases List.mem_cons.mp hmem with heq | hmem'
        · obtain ⟨-, rfl⟩ := Prod.mk.injEq _ _ _ _ |>.mp heq
          exact ⟨(lo, sp), hc⟩
        · exact ih cs' hr name pid hmem'

/-- Inversion of a successful `calculate_natal_chart` run: every step
succeeded and the result is the planet list followed by ASC and MC. -/
theorem natal_chart_some_inv (eph : Ephemeris) (d t : String) (lat lon : ℚ)
    (c : NatalChart) (h : calculate_natal_chart eph d t lat lon = some c) :
    ∃ y mo dd hh mi ps asc mc,
      strptimeDateTime d t = some (y, mo, dd, hh, mi)
      ∧ chartJD d t = utc_to_jd (jstToUTC y mo dd hh mi)
      ∧ calcPlanets eph (chartJD d t) planets = some ps
      ∧ eph.houses (chartJD d t) lat lon = some (asc, mc)
      ∧ c = ps ++ [("ASC", ChartEntry.angle asc), ("MC", ChartEntry.angle mc)] := by
  unfold calculate_natal_chart at h
  split at h
  · exact absurd h (by simp)
  next y mo dd hh mi heq =>
    have hjd : chartJD d t = utc_to_jd (jstToUTC y mo dd hh mi) := by
      unfold chartJD
      rw [heq]
    rw [← hjd] at h
    replace h : (match calcPlanets eph (chartJD d t) planets with
        | none => none
        | some ps =>
          match eph.houses (chartJD d t) lat lon with
          | none => none
          | some (asc, mc) =>
            some (ps ++ [("ASC", ChartEntry.angle asc), ("MC", ChartEntry.angle mc)]))
        = some c := h
    split at h
    · exact absurd h (by simp)
    next ps hps =>
      split at h
      · exact absurd h (by simp)
      next asc mc hhs =>
        simp only [Option.some.injEq] at h
        exact ⟨y, mo, dd, hh, mi, ps, asc, mc, heq, hjd, hps, hhs, h.symm⟩

/-- C4: whenever `calculate_natal_chart` returns a chart, it carries
exactly the 12 identifiers Sun..Pluto, ASC, MC, each exactly once, and —
given the ephemeris contract that all returned longitudes are normalized
to `[0, 360)` — every longitude of the chart lies in `[0, 360)`; the chart
is never partially populated. -/
theorem natal_chart_complete (eph : Ephemeris) (d t : String) (lat lon : ℚ)
    (c : NatalChart)
    (hcalc : ∀ jd p lo sp, eph.calc_ut jd p = some (lo, sp) → 0 ≤ lo ∧ lo < 360)
    (hhouses : ∀ jd la lo a m, eph.houses jd la lo = some (a, m) →
        (0 ≤ a ∧ a < 360) ∧ (0 ≤ m ∧ m < 360))
    (h : calculate_natal_chart eph d t lat lon = some c) :
    c.map Prod.fst = chartKeys ∧ c.length = 12 ∧ (c.map Prod.fst).Nodup
    ∧ ∀ e ∈ c, 0 ≤ (e.2).lon ∧ (e.2).lon < 360 := by
  obtain ⟨y, mo, dd, hh, mi, ps, asc, mc, hparse, hjd, hps, hhs, rfl⟩ :=
    natal_chart_some_inv eph d t lat lon c h
  obtain ⟨hk, hsh⟩ := calcPlanets_shape eph (chartJD d t) planets ps hps
  have hkeys : ((ps ++ [("ASC", ChartEntry.angle asc), ("MC", ChartEntry.angle mc)]).map
      Prod.fst) = chartKeys := by
    simp only [List.map_append, hk, List.map_cons, List.map_nil]
    decide
  refine ⟨hkeys, ?_, ?_, ?_⟩
  · have hlen := congrArg List.length hkeys
    rw [List.length_map] at hlen
    rw [hlen]
    decide
  · rw [hkeys]
    decide
  · intro e he
    rcases List.mem_append.mp he with he | he
    · obtain ⟨lo, sp, pid, h1, h2⟩ := hsh e he
      have hr := hcalc _ _ _ _ h2
      rw [h1]
      exact hr
    · have he' : e = ("ASC", ChartEntry.angle asc) ∨ e = ("MC", ChartEntry.angle mc) := by
        simpa using he
      have hr := hhouses _ _ _ _ _ hhs
      rcases he' with rfl | rfl
      · exact hr.1
      · exact hr.2

/-- A concrete ephemeris oracle used only to witness the theorems: every
planet at longitude 15 with speed 1, ASC at 100, MC at 200. -/
def ephConst : Ephemeris :=
  ⟨fun _ _ => some (15, 1), fun _ _ _ => some (100, 200)⟩

/-- The chart `ephConst` produces. -/
def chartConst : NatalChart :=
  [("Sun", ChartEntry.planet 15 1), ("Moon", ChartEntry.planet 15 1),
   ("Mercury", ChartEntry.planet 15 1), ("Venus", ChartEntry.planet 15 1),
   ("Mars", ChartEntry.planet 15 1), ("Jupiter", ChartEntry.planet 15 1),
   ("Saturn", ChartEntry.planet 15 1), ("Uranus", ChartEntry.planet 15 1),
   ("Neptune", ChartEntry.planet 15 1), ("Pluto", ChartEntry.planet 15 1),
   ("ASC", ChartEntry.angle 100), ("MC", ChartEntry.angle 200)]

/-- Witness for `natal_chart_complete`: the scenario-1 birth moment with
the concrete oracle. -/
theorem natal_chart_complete_witness :
    chartConst.map Prod.fst = chartKeys ∧ chartConst.length = 12
    ∧ (chartConst.map Prod.fst).Nodup
    ∧ ∀ e ∈ chartConst, 0 ≤ (e.2).lon ∧ (e.2).lon < 360 :=
  natal_chart_complete ephConst "1990-01-01" "12:30" 35 139 chartConst
    (by
      intro jd p lo sp hp
      simp only [ephConst, Option.some.injEq, Prod.mk.injEq] at hp
      obtain ⟨h1, h2⟩ := hp
      rw [← h1]
      norm_num)
    (by
      intro jd la lo a m hp
      simp only [ephConst, Option.some.injEq, Prod.mk.injEq] at hp
      obtain ⟨h1, h2⟩ := hp
      rw [← h1, ← h2]
      norm_num)
    (by decide)

/-- C5: `None` is the failure signal of `calculate_natal_chart` — an
unparsable timestamp yields `none`, and conversely a non-null return
certifies that every internal step succeeded (the timestamp parsed, every
planetary calculation and the house calculation returned) and that the
chart is complete, never partially filled. -/
theorem natal_chart_failure_signal (eph : Ephemeris) (d t : String) (lat lon : ℚ) :
    (strptimeDateTime d t = none → calculate_natal_chart eph d t lat lon = none)
    ∧ (∀ c, calculate_natal_chart eph d t lat lon = some c →
        (∃ v, strptimeDateTime d t = some v)
        ∧ (∀ name pid, (name, pid) ∈ planets →
            ∃ r, eph.calc_ut (chartJD d t) pid = some r)
        ∧ (∃ r, eph.houses (chartJD d t) lat lon = some r)
        ∧ c.map Prod.fst = chartKeys) := by
  constructor
  · intro hnone
    unfold calculate_natal_chart
    rw [hnone]
  · intro c h
    obtain ⟨y, mo, dd, hh, mi, ps, asc, mc, hparse, hjd, hps, hhs, rfl⟩ :=
      natal_chart_some_inv eph d t lat lon c h
    obtain ⟨hk, -⟩ := calcPlanets_shape eph (chartJD d t) planets ps hps
    refine ⟨⟨_, hparse⟩, calcPlanets_all_some eph (chartJD d t) planets ps hps,
      ⟨(asc, mc), hhs⟩, ?_⟩
    simp only [List.map_append, hk, List.map_cons, List.map_nil]
    decide

/-- Witness for `natal_chart_failure_signal` at a failing input: the
date string "hello" does not parse, so the chart is the null chart. -/
theorem natal_chart_failure_signal_witness :
    calculate_natal_chart ephConst "hello" "12:30" 35 139 = none :=
  (natal_chart_failure_signal ephConst "hello" "12:30" 35 139).1 (by decide)

/-- C8: the chart computation is deterministic — it is a pure function of
the date string, time string and coordinate, plus the input-output
behaviour of the ephemeris oracle: two oracles that agree extensionally
yield identical charts, so repeated invocations on fixed inputs always
return the same `NatalChart` (no hidden state enters the computation). -/
theorem natal_chart_deterministic (eph1 eph2 : Ephemeris) (d t : String)
    (lat lon : ℚ)
    (hc : ∀ jd p, eph1.calc_ut jd p = eph2.calc_ut jd p)
    (hh : ∀ jd la lo, eph1.houses jd la lo = eph2.houses jd la lo) :
    calculate_natal_chart eph1 d t lat lon = calculate_natal_chart eph2 d t lat lon := by
  obtain ⟨c1, h1⟩ := eph1
  obtain ⟨c2, h2⟩ := eph2
  have hceq : c1 = c2 := funext fun jd => funext fun p => hc jd p
  have hheq : h1 = h2 := funext fun jd => funext fun la => funext fun lo => hh jd la lo
  subst hceq
  subst hheq
  rfl

/-- Witness for `natal_chart_deterministic`: two syntactically different
but extensionally equal oracles produce the same chart. -/
theorem natal_chart_deterministic_witness :
    calculate_natal_chart ephConst "1990-01-01" "12:30" 35 139
      = calculate_natal_chart ⟨fun _ p => some (15, 1 * 1), fun _ _ _ => some (100, 200)⟩
          "1990-01-01" "12:30" 35 139 :=
  natal_chart_deterministic ephConst
    ⟨fun _ p => some (15, 1 * 1), fun _ _ _ => some (100, 200)⟩
    "1990-01-01" "12:30" 35 139
    (fun jd p => by norm_num [ephConst])
    (fun jd la lo => rfl)

/-- C10: every successfully assembled chart is shape-heterogeneous: each
of the ten planetary identifiers maps to a (longitude, speed) 2-tuple,
while ASC and MC map to a 1-tuple with a longitude only, so reading the
speed component (`pos[1]`) of ASC or MC fails (`none`). -/
theorem chart_shape_heterogeneous (eph : Ephemeris) (d t : String) (lat lon : ℚ)
    (c : NatalChart) (h : calculate_natal_chart eph d t lat lon = some c) :
    ∀ p ∈ c,
      (p.1 ∈ planets.map Prod.fst →
        ∃ lo sp, p.2 = ChartEntry.planet lo sp ∧ (p.2).speed? = some sp)
      ∧ ((p.1 = "ASC" ∨ p.1 = "MC") →
        ∃ lo, p.2 = ChartEntry.angle lo ∧ (p.2).speed? = none) := by
  obtain ⟨y, mo, dd, hh, mi, ps, asc, mc, hparse, hjd, hps, hhs, rfl⟩ :=
    natal_chart_some_inv eph d t lat lon c h
  obtain ⟨hk, hsh⟩ := calcPlanets_shape eph (chartJD d t) planets ps hps
  intro p hp
  rcases List.mem_append.mp hp with hp | hp
  · obtain ⟨lo, sp, pid, h1, h2⟩ := hsh p hp
    constructor
    · intro _
      exact ⟨lo, sp, h1, by rw [h1]; rfl⟩
    · intro hasc
      exfalso
      have hmem : p.1 ∈ ps.map Prod.fst := List.mem_map_of_mem _ hp
      rw [hk] at hmem
      rcases hasc with heq | heq <;> rw [heq] at hmem <;> exact absurd hmem (by decide)
  · have hp' : p = ("ASC", ChartEntry.angle asc) ∨ p = ("MC", ChartEntry.angle mc) := by
      simpa using hp
    rcases hp' with rfl | rfl
    · exact ⟨fun hmem => by simp [planets] at hmem, fun _ => ⟨asc, rfl, rfl⟩⟩
    · exact ⟨fun hmem => by simp [planets] at hmem, fun _ => ⟨mc, rfl, rfl⟩⟩

/-- Witness for `chart_shape_heterogeneous` on a concrete successful run,
instantiated at the Sun entry and at the ASC entry of that chart. -/
theorem chart_shape_heterogeneous_witness :
    (∃ lo sp, ChartEntry.planet 15 1 = ChartEntry.planet lo sp
        ∧ (ChartEntry.planet 15 1).speed? = some sp)
    ∧ (∃ lo, ChartEntry.angle 100 = ChartEntry.angle lo
        ∧ (ChartEntry.angle 100).speed? = none) :=
  ⟨(chart_shape_heterogeneous ephConst "1990-01-01" "12:30" 35 139 chartConst (by decide)
      ("Sun", ChartEntry.planet 15 1) (by decide)).1 (by decide),
   (chart_shape_heterogeneous ephConst "1990-01-01" "12:30" 35 139 chartConst (by decide)
      ("ASC", ChartEntry.angle 100) (by decide)).2 (Or.inl rfl)⟩

/-- C6 (counterexample): a three-field message whose first field contains
no space — here `"x, 東京都, 港区"` — is a malformed input, yet
`parts[0].split(' ')[1]` raises `IndexError` (not `ValueError`), which only
the generic handler catches: the outcome is the unclassified
unexpected-error reply, neither the wrong-shape nor the wrong-date/time
classification. -/
theorem handle_message_unclassified_counterexample :
    handle_message (fun _ _ => none) ⟨fun _ _ => none, fun _ _ _ => none⟩
        "x, 東京都, 港区" = Outcome.unexpectedError := by
  decide

/-- C6 (amended): apart from the greeting, the parser classifies every
deviation with three comma-fields whose first field splits into at least
two space-tokens as either wrong shape (field count ≠ 3) or wrong
date/time syntax; a three-field message whose first field has no space
escapes to the unclassified unexpected-error outcome instead.  In
particular `"hello"` yields wrong shape and date `"1990-13-40"` yields
wrong date/time syntax. -/
theorem handle_message_classification (geo : String → String → Option (ℚ × ℚ))
    (eph : Ephemeris) (msg : String)
    (hng : pyLower (pyStrip msg) ≠ "こんにちは") :
    ((msgParts msg).length ≠ 3 → handle_message geo eph msg = Outcome.wrongShape)
    ∧ ((msgParts msg).length = 3 → (firstFieldTokens msg).length ≤ 1 →
        handle_message geo eph msg = Outcome.unexpectedError)
    ∧ (∀ d t rest, (msgParts msg).length = 3 →
        firstFieldTokens msg = d :: t :: rest →
        strptimeDate d = none ∨ strptimeTime t = none →
        handle_message geo eph msg = Outcome.wrongDateTime)
    ∧ handle_message geo eph "hello" = Outcome.wrongShape
    ∧ handle_message geo eph "1990-13-40 12:30, 東京都, 港区" = Outcome.wrongDateTime := by
  refine ⟨?_, ?_, ?_, ?_, ?_⟩
  · intro hlen
    unfold handle_message
    rw [if_neg hng, if_neg hlen]
  · intro hlen htok
    unfold handle_message
    rw [if_neg hng, if_pos hlen]
    have hnone : (firstFieldTokens msg).get? 1 = none := by
      rw [List.get?_eq_none]
      omega
    rw [hnone]
  · intro d t rest hlen htok hbad
    unfold handle_message
    rw [if_neg hng, if_pos hlen, htok]
    rcases hbad with hb | hb
    · cases hst : strptimeTime t with
      | none =>
        simp only [List.get?_cons_succ, List.get?_cons_zero, List.getD_cons_zero, hb, hst]
      | some vt =>
        simp only [List.get?_cons_succ, List.get?_cons_zero, List.getD_cons_zero, hb, hst]
    · cases hsd : strptimeDate d with
      | none =>
        simp only [List.get?_cons_succ, List.get?_cons_zero, List.getD_cons_zero, hb, hsd]
      | some vd =>
        simp only [List.get?_cons_succ, List.get?_cons_zero, List.getD_cons_zero, hb, hsd]
  · rfl
  · rfl

/-- Witness for `handle_message_classification` at `msg = "hello"`. -/
theorem handle_message_classification_witness :
    handle_message (fun _ _ => none) ⟨fun _ _ => none, fun _ _ _ => none⟩ "hello"
      = Outcome.wrongShape :=
  (handle_message_classification (fun _ _ => none)
      ⟨fun _ _ => none, fun _ _ _ => none⟩ "hello" (by decide)).1 (by decide)

/-- C9: when the geocoding lookup reports "not found" for the parsed
(city, region), the pipeline halts with the geocode-not-found outcome:
the result is independent of the ephemeris oracle (so no chart computation
is ever consulted), and depends on the geocoder only through that single
looked-up value (one lookup, no internal retry). -/
theorem geocode_not_found_halts (geo : String → String → Option (ℚ × ℚ))
    (eph : Ephemeris) (msg f0 region city d t : String) (rest : List String)
    (hng : pyLower (pyStrip msg) ≠ "こんにちは")
    (hparts : msgParts msg = [f0, region, city])
    (htok : firstFieldTokens msg = d :: t :: rest)
    (hd : strptimeDate d ≠ none) (ht : strptimeTime t ≠ none)
    (hgeo : geo city region = none) :
    handle_message geo eph msg = Outcome.geocodeNotFound
    ∧ (∀ eph2, handle_message geo eph2 msg = Outcome.geocodeNotFound)
    ∧ (∀ geo2, geo2 city region = none →
        handle_message geo2 eph msg = Outcome.geocodeNotFound) := by
  have main : ∀ (geo2 : String → String → Option (ℚ × ℚ)) (eph2 : Ephemeris),
      geo2 city region = none → handle_message geo2 eph2 msg = Outcome.geocodeNotFound := by
    intro geo2 eph2 hg2
    unfold handle_message
    rw [if_neg hng, if_pos (by rw [hparts]; rfl), htok, hparts]
    cases hsd : strptimeDate d with
    | none => exact absurd hsd hd
    | some vd =>
      cases hst : strptimeTime t with
      | none => exact absurd hst ht
      | some vt =>
        simp only [List.get?_cons_succ, List.get?_cons_zero, List.getD_cons_zero,
          List.getD_cons_succ, hsd, hst, hg2]
  exact ⟨main geo eph hgeo, fun eph2 => main geo eph2 hgeo, fun geo2 hg => main geo2 eph hg⟩

/-- Witness for `geocode_not_found_halts`: a well-formed request whose
locality the geocoder cannot resolve. -/
theorem geocode_not_found_halts_witness :
    handle_message (fun _ _ => none) ephConst "1990-01-01 12:30, 東京都, Nowhere"
        = Outcome.geocodeNotFound
    ∧ (∀ eph2, handle_message (fun _ _ => none) eph2 "1990-01-01 12:30, 東京都, Nowhere"
        = Outcome.geocodeNotFound)
    ∧ (∀ geo2, geo2 "Nowhere" "東京都" = none →
        handle_message geo2 ephConst "1990-01-01 12:30, 東京都, Nowhere"
          = Outcome.geocodeNotFound) :=
  geocode_not_found_halts (fun _ _ => none) ephConst
    "1990-01-01 12:30, 東京都, Nowhere" "1990-01-01 12:30" "東京都" "Nowhere"
    "1990-01-01" "12:30" []
    (by decide) (by decide) (by decide) (by decide) (by decide) rfl
